import Mathlib

/-!
Verification of the LoRa Mesh TAK client-side protocol stack
(`lora_mesh_tak/slip.py` and `lora_mesh_tak/client.py`) against its
natural-language specification.

Bytes are modelled as `Nat` (the Python code only ever compares bytes
against the four SLIP constants, so nothing depends on an upper bound).
Fallible Python functions (`raise ValueError`) are modelled with `Except`.
-/

namespace LoraMesh

/-! ## SLIP framing constants, from `slip.py` -/

def SLIP_END : Nat := 0xC0
def SLIP_ESC : Nat := 0xDB
def SLIP_ESC_END : Nat := 0xDC
def SLIP_ESC_ESC : Nat := 0xDD

/-- The per-byte body of the loop in `slip_encode`: a delimiter byte and an
escape byte each become a two-byte escape sequence, anything else is kept. -/
def slip_encode_byte (b : Nat) : List Nat :=
  if b = SLIP_END then [SLIP_ESC, SLIP_ESC_END]
  else if b = SLIP_ESC then [SLIP_ESC, SLIP_ESC_ESC]
  else [b]

/-- `slip_encode` from `slip.py`: a leading `END`, the escaped payload,
and a trailing `END`. -/
def slip_encode (data : List Nat) : List Nat :=
  SLIP_END :: (data.flatMap slip_encode_byte ++ [SLIP_END])

/-- `slip_decode` from `slip.py`.  The Python loop walks the input with an
index; an escape byte consumes the following byte, which must be one of the
two escaped-literal codes, a delimiter byte is skipped, and any other byte is
kept verbatim. -/
def slip_decode : List Nat → Except String (List Nat)
  | [] => Except.ok []
  | b :: rest =>
    if b = SLIP_ESC then
      match rest with
      | [] => Except.error ("Incomplete escape sequence at end of data")
      | nb :: rest2 =>
        if nb = SLIP_ESC_END then (slip_decode rest2).map (fun r => SLIP_END :: r)
        else if nb = SLIP_ESC_ESC then (slip_decode rest2).map (fun r => SLIP_ESC :: r)
        else Except.error ("Invalid escape sequence")
    else if b = SLIP_END then slip_decode rest
    else (slip_decode rest).map (fun r => b :: r)

/-! ## The stateful frame reader `SlipReader` from `slip.py` -/

/-- State of `SlipReader`: the in-progress buffer, the `_in_packet` flag and
the FIFO queue of already decoded frames. -/
structure SlipReader where
  buffer : List Nat
  in_packet : Bool
  packets : List (List Nat)
deriving DecidableEq

/-- One iteration of the `for byte in data` loop of `SlipReader.feed`. -/
def SlipReader.feed_byte (s : SlipReader) (b : Nat) : SlipReader :=
  if b = SLIP_END then
    { buffer := [],
      in_packet := true,
      packets :=
        if s.in_packet ∧ s.buffer ≠ [] then
          match slip_decode s.buffer with
          | Except.ok d => s.packets ++ [d]
          | Except.error _ => s.packets
        else s.packets }
  else if s.in_packet then
    { s with buffer := s.buffer ++ [b] }
  else s

/-- `SlipReader.feed` from `slip.py`: fold the per-byte step over the input. -/
def SlipReader.feed (s : SlipReader) (data : List Nat) : SlipReader :=
  data.foldl SlipReader.feed_byte s

/-- The freshly constructed reader (`SlipReader.__init__`). -/
def SlipReader.init : SlipReader :=
  { buffer := [], in_packet := false, packets := [] }

/-! ## Statement-side predicate for claim C5

`bad_escape_at l i` says: position `i` of `l` holds an escape byte that is
either the last byte of the input or is followed by a byte other than the two
recognized escaped-literal codes.  This is the condition the spec names for
`FramingError`. -/

def bad_escape_at (l : List Nat) (i : Nat) : Prop :=
  l.get? i = some SLIP_ESC ∧
    ∀ c, l.get? (i + 1) = some c → c ≠ SLIP_ESC_END ∧ c ≠ SLIP_ESC_ESC

/-- Boolean form of "some position of `l` is a malformed escape". -/
def has_bad_escape : List Nat → Bool
  | [] => false
  | [b] => if b = SLIP_ESC then true else false
  | b :: nb :: rest =>
    if b = SLIP_ESC ∧ nb ≠ SLIP_ESC_END ∧ nb ≠ SLIP_ESC_ESC then true
    else has_bad_escape (nb :: rest)

/-! ## Client model, from `client.py`

`LoRaMeshClient` keeps a packet-id counter (`_packet_id`, initially 0), a
dict of per-request completion events (`_response_events`) and a dict of
captured responses (`_pending_responses`).  Dicts keyed by packet id are
modelled as association lists; a `threading.Event` is modelled by the `Bool`
"has been set".  Inbound protobuf payloads are opaque to the client except
for the `oneof` discriminator, modelled by `Payload`. -/

/-- Python exceptions raised by the modelled client operations.  The
interpolated values in `TimeoutError`'s message (a float) are outside the
model, so that constructor carries no message. -/
inductive PyError where
  | valueError (msg : String)
  | timeoutError
  | keyError
deriving DecidableEq

/-- Association-list lookup for a dict keyed by packet id. -/
def lookupId {β : Type} : List (Nat × β) → Nat → Option β
  | [], _ => none
  | (k, v) :: rest, id => if k = id then some v else lookupId rest id

/-- Association-list key removal (`dict.pop`). -/
def removeId {β : Type} : List (Nat × β) → Nat → List (Nat × β)
  | [], _ => []
  | (k, v) :: rest, id =>
    if k = id then removeId rest id else (k, v) :: removeId rest id

/-- Association-list assignment (`d[k] = v`). -/
def insertId {β : Type} (l : List (Nat × β)) (k : Nat) (v : β) : List (Nat × β) :=
  (k, v) :: removeId l k

/-- Set the completion flag of the event stored under key `k`
(`self._response_events[request_id].set()`). -/
def setFired : List (Nat × Bool) → Nat → List (Nat × Bool)
  | [], _ => []
  | (k, v) :: rest, id =>
    if k = id then (k, true) :: setFired rest id else (k, v) :: setFired rest id

/-- The `oneof payload` discriminator of a `FromDevice` message: response
kinds first, then the five asynchronous event kinds. -/
inductive Payload where
  | result | info | gps | neighbors | routes | roster | stats
  | message_received | gps_received | neighbor_changed | emergency_received | log
deriving DecidableEq

/-- The five payload kinds that `_handle_event` recognizes as events. -/
def Payload.is_event_kind : Payload → Bool
  | .message_received => true
  | .gps_received => true
  | .neighbor_changed => true
  | .emergency_received => true
  | .log => true
  | _ => false

/-- An inbound `FromDevice` envelope: correlation id plus payload. -/
structure FromDevice where
  request_id : Nat
  payload : Payload
deriving DecidableEq

/-- A parsed `SerialPacket`; `from_device = none` models a packet without
the `from_device` field set (`HasField` false). -/
structure SerialPacket where
  packet_id : Nat
  from_device : Option FromDevice
deriving DecidableEq

/-- Which event callbacks are currently registered (`self._on_message` is
not `None`, etc.). -/
structure Callbacks where
  on_message : Bool
  on_gps : Bool
  on_neighbor : Bool
  on_emergency : Bool
  on_log : Bool
deriving DecidableEq

/-- `_handle_event`: dispatch to the registered handler of the populated
event kind, if any; returns which handler was invoked (`none` = no handler
ran, i.e. the envelope was dropped). -/
def handle_event (cbs : Callbacks) (r : FromDevice) : Option Payload :=
  match r.payload with
  | .message_received => if cbs.on_message then some .message_received else none
  | .gps_received => if cbs.on_gps then some .gps_received else none
  | .neighbor_changed => if cbs.on_neighbor then some .neighbor_changed else none
  | .emergency_received => if cbs.on_emergency then some .emergency_received else none
  | .log => if cbs.on_log then some .log else none
  | _ => none

/-- The client state relevant to id allocation and correlation:
`_packet_id`, `_response_events` (id ↦ event-set flag) and
`_pending_responses` (id ↦ captured response). -/
structure ClientState where
  packet_id : Nat
  response_events : List (Nat × Bool)
  pending_responses : List (Nat × FromDevice)
deriving DecidableEq

/-- The state after `__init__` (`self._packet_id = 0`, empty dicts). -/
def init_client : ClientState :=
  { packet_id := 0, response_events := [], pending_responses := [] }

/-- `_next_packet_id`: `self._packet_id = (self._packet_id + 1) % 0xFFFFFFFF`
and return the new value. -/
def next_packet_id (s : ClientState) : Nat × ClientState :=
  ((s.packet_id + 1) % 0xFFFFFFFF,
   { s with packet_id := (s.packet_id + 1) % 0xFFFFFFFF })

/-- The state after `k` successive `_next_packet_id` calls. -/
def allocN (s : ClientState) : Nat → ClientState
  | 0 => s
  | k + 1 => (next_packet_id (allocN s k)).2

/-- Which code path `_handle_packet` took for a packet. -/
inductive HandleOutcome where
  | resolved_pending (id : Nat)
  | event (invoked : Option Payload)
  | dropped
deriving DecidableEq

/-- `_handle_packet`: if the packet has a `from_device` payload whose
`request_id` matches a registered response event, store the response and set
that event; otherwise hand the envelope to `_handle_event`.  A packet
without `from_device` falls through (modelled as `dropped`). -/
def handle_packet (cbs : Callbacks) (s : ClientState) (pkt : SerialPacket) :
    ClientState × HandleOutcome :=
  match pkt.from_device with
  | none => (s, HandleOutcome.dropped)
  | some r =>
    match lookupId s.response_events r.request_id with
    | some _ =>
      ({ s with
          pending_responses := insertId s.pending_responses r.request_id r,
          response_events := setFired s.response_events r.request_id },
       HandleOutcome.resolved_pending r.request_id)
    | none => (s, HandleOutcome.event (handle_event cbs r))

/-- Registering the completion event for a freshly allocated packet id
(`self._response_events[packet_id] = event`, the new event unset). -/
def register_event (s : ClientState) (id : Nat) : ClientState :=
  { s with response_events := insertId s.response_events id false }

/-- The reader thread handling a sequence of inbound packets
(`_handle_packet` called once per packet, in order). -/
def run_reader (cbs : Callbacks) (st : ClientState) (arrivals : List SerialPacket) :
    ClientState :=
  arrivals.foldl (fun s p => (handle_packet cbs s p).1) st

/-- The `finally` block of `_send_command`:
`self._response_events.pop(packet_id, None)`. -/
def deregister_event (s : ClientState) (id : Nat) : ClientState :=
  { s with response_events := removeId s.response_events id }

/-- `_send_command`, as seen by one caller.  The reader thread's activity
during the caller's `event.wait(timeout)` window is modelled by `arrivals`:
the packets `_handle_packet` processed before the wait ended.  After the
window, the wait result is the stored event flag for the allocated id; if it
was never set the call raises `TimeoutError`; if it was set the call pops
and returns the captured response.  Either way the `finally` block
deregisters the response event.  The serial write itself carries no state
relevant to correlation and is not modelled. -/
def send_command_run (cbs : Callbacks) (s : ClientState) (arrivals : List SerialPacket) :
    ClientState × Except PyError FromDevice :=
  match lookupId (run_reader cbs (register_event (next_packet_id s).2 (next_packet_id s).1)
      arrivals).response_events (next_packet_id s).1 with
  | some true =>
    match lookupId (run_reader cbs (register_event (next_packet_id s).2 (next_packet_id s).1)
        arrivals).pending_responses (next_packet_id s).1 with
    | some r =>
      ({ deregister_event
            (run_reader cbs (register_event (next_packet_id s).2 (next_packet_id s).1) arrivals)
            (next_packet_id s).1 with
          pending_responses :=
            removeId (run_reader cbs
                (register_event (next_packet_id s).2 (next_packet_id s).1)
                arrivals).pending_responses (next_packet_id s).1 },
       Except.ok r)
    | none =>
      (deregister_event
          (run_reader cbs (register_event (next_packet_id s).2 (next_packet_id s).1) arrivals)
          (next_packet_id s).1,
       Except.error PyError.keyError)
  | _ =>
    (deregister_event
        (run_reader cbs (register_event (next_packet_id s).2 (next_packet_id s).1) arrivals)
        (next_packet_id s).1,
     Except.error PyError.timeoutError)

/-- A client state with every event callback registered (used to show that
even then a late response invokes no handler). -/
def all_callbacks : Callbacks :=
  { on_message := true, on_gps := true, on_neighbor := true,
    on_emergency := true, on_log := true }

/-- Example state: counter at 5, id 9 backing a pending request. -/
def sample_pending_state : ClientState :=
  { packet_id := 5, response_events := [(9, true)],
    pending_responses := [(9, { request_id := 9, payload := Payload.result })] }

/-- Example state: counter at 1, id 2 backing a pending request. -/
def counter_collision_state : ClientState :=
  { packet_id := 1, response_events := [(2, false)], pending_responses := [] }

/-- A late reply frame carrying `request_id` 1 and a response-kind payload. -/
def late_reply_packet : SerialPacket :=
  { packet_id := 7, from_device := some { request_id := 1, payload := Payload.result } }

/-! ## Messaging layer, from `client.py`

For `send_message` / `_send_split_message` / `broadcast` the interesting
behaviour is which commands are issued, in which order, with which waits,
and how failures propagate.  `_send_command` is abstracted by the oracle
`fails`: the error (if any) that sending a given text raises.  The produced
`Action` trace records each issued command (with the `timeout` argument the
code passed down to `_send_command`) and each `time.sleep` (in ms). -/

/-- One observable step of the messaging layer. -/
inductive Action where
  | send (text : List Char) (timeout : Option Nat)
  | sleep (ms : Nat)
deriving DecidableEq

/-- The `ValueError` message built by `send_message` for oversized text
(`MAX_LENGTH = 180`). -/
def too_long_msg (n : Nat) : String :=
  ("Message too long (" ++ Nat.repr n ++ " chars). Max: " ++ Nat.repr 180 ++
    "\nUse auto_split=True to automatically split into multiple messages, or split manually.")

/-- The part label of `_send_split_message`: `f"[{idx}/{total}] " + chunk`
(`idx` already 1-based). -/
def part_text (idx total : Nat) (chunk : List Char) : List Char :=
  ("[" ++ Nat.repr idx ++ "/" ++ Nat.repr total ++ "] ").data ++ chunk

/-- The chunk list `[text[i:i+160] for i in range(0, len(text), 160)]`
(`CHUNK_SIZE = 160`), as structural recursion on the text. -/
def chunks160 (l : List Char) : List (List Char) :=
  match l with
  | [] => []
  | c :: cs => ((c :: cs).take 160) :: chunks160 ((c :: cs).drop 160)
termination_by l.length
decreasing_by
  simp [List.length_drop]
  omega

/-- The `for i, chunk in enumerate(chunks)` loop of `_send_split_message`:
send each labelled part, stop at the first failure (the raised error
propagates), and sleep 300 ms after every part except the last. -/
def send_chunks (fails : List Char → Option PyError) (timeout : Option Nat) (total : Nat) :
    Nat → List (List Char) → List Action × Except PyError (List Char)
  | _, [] => ([], Except.ok [])
  | i, c :: cs =>
    match fails (part_text (i + 1) total c) with
    | some e => ([Action.send (part_text (i + 1) total c) timeout], Except.error e)
    | none =>
      if i < total - 1 then
        (Action.send (part_text (i + 1) total c) timeout :: Action.sleep 300 ::
           (send_chunks fails timeout total (i + 1) cs).1,
         (send_chunks fails timeout total (i + 1) cs).2)
      else
        (Action.send (part_text (i + 1) total c) timeout ::
           (send_chunks fails timeout total (i + 1) cs).1,
         (send_chunks fails timeout total (i + 1) cs).2)

/-- `_send_split_message(text, priority, timeout)`; `priority` is accepted
and never used, exactly as in the code. -/
def send_split_message (fails : List Char → Option PyError) (text : List Char)
    (priority : Option Nat) (timeout : Option Nat) :
    List Action × Except PyError (List Char) :=
  send_chunks fails timeout (chunks160 text).length 0 (chunks160 text)

/-- `send_message(text, priority, timeout, auto_split)`: one direct send for
text up to 180 characters, `ValueError` for longer text without
`auto_split`, otherwise delegate to `_send_split_message`. -/
def send_message (fails : List Char → Option PyError) (text : List Char)
    (priority : Option Nat) (timeout : Option Nat) (auto_split : Bool) :
    List Action × Except PyError (List Char) :=
  if text.length ≤ 180 then
    ([Action.send text timeout],
     match fails text with
     | some e => Except.error e
     | none => Except.ok [])
  else if auto_split = false then
    ([], Except.error (PyError.valueError (too_long_msg text.length)))
  else
    send_split_message fails text priority timeout

/-- `broadcast(text, timeout)` is `self.send_message(text, timeout)`: the
two arguments are passed positionally, so the caller's `timeout` lands in
`send_message`'s `priority` parameter and `timeout`/`auto_split` keep their
defaults (`None` / `False`). -/
def broadcast (fails : List Char → Option PyError) (text : List Char)
    (timeout : Option Nat) : List Action × Except PyError (List Char) :=
  send_message fails text timeout none false

/-! ## Unfolding lemmas for `slip_decode` -/

theorem slip_decode_nil : slip_decode [] = Except.ok [] := rfl

theorem slip_decode_esc_nil :
    slip_decode [SLIP_ESC] =
      Except.error ("Incomplete escape sequence at end of data") := rfl

theorem slip_decode_esc_end (rest : List Nat) :
    slip_decode (SLIP_ESC :: SLIP_ESC_END :: rest) =
      (slip_decode rest).map (fun r => SLIP_END :: r) := rfl

theorem slip_decode_esc_esc (rest : List Nat) :
    slip_decode (SLIP_ESC :: SLIP_ESC_ESC :: rest) =
      (slip_decode rest).map (fun r => SLIP_ESC :: r) := rfl

theorem slip_decode_esc_bad (nb : Nat) (rest : List Nat)
    (h1 : nb ≠ SLIP_ESC_END) (h2 : nb ≠ SLIP_ESC_ESC) :
    slip_decode (SLIP_ESC :: nb :: rest) =
      Except.error ("Invalid escape sequence") := by
  rw [slip_decode.eq_def]
  simp [h1, h2]

theorem slip_decode_end_cons (rest : List Nat) :
    slip_decode (SLIP_END :: rest) = slip_decode rest := by
  rw [slip_decode.eq_def]
  simp [SLIP_END, SLIP_ESC]

theorem slip_decode_other (b : Nat) (rest : List Nat)
    (h1 : b ≠ SLIP_ESC) (h2 : b ≠ SLIP_END) :
    slip_decode (b :: rest) = (slip_decode rest).map (fun r => b :: r) := by
  rw [slip_decode.eq_def]
  simp [h1, h2]

/-! ## Helper lemmas about the codec -/

theorem decode_encode_aux (x : List Nat) (suffix : List Nat) :
    slip_decode (x.flatMap slip_encode_byte ++ suffix) =
      (slip_decode suffix).map (fun r => x ++ r) := by
  induction x with
  | nil =>
    cases h : slip_decode suffix <;> simp [h, Except.map]
  | cons b xs ih =>
    rw [List.flatMap_cons]
    by_cases hEND : b = SLIP_END
    · subst hEND
      rw [show slip_encode_byte SLIP_END = [SLIP_ESC, SLIP_ESC_END] from by
        simp [slip_encode_byte]]
      simp only [List.append_assoc, List.cons_append, List.nil_append]
      rw [slip_decode_esc_end, ih]
      cases h : slip_decode suffix <;> simp [Except.map]
    · by_cases hESC : b = SLIP_ESC
      · subst hESC
        rw [show slip_encode_byte SLIP_ESC = [SLIP_ESC, SLIP_ESC_ESC] from by
          simp [slip_encode_byte, SLIP_END, SLIP_ESC]]
        simp only [List.append_assoc, List.cons_append, List.nil_append]
        rw [slip_decode_esc_esc, ih]
        cases h : slip_decode suffix <;> simp [Except.map]
      · rw [show slip_encode_byte b = [b] from by simp [slip_encode_byte, hEND, hESC]]
        simp only [List.append_assoc, List.cons_append, List.nil_append]
        rw [slip_decode_other b _ hESC hEND, ih]
        cases h : slip_decode suffix <;> simp [Except.map]

/-- C3: for every byte sequence `x`, `slip_decode (slip_encode x) = ok x`:
the frame codec round-trips all payloads. -/
theorem slip_decode_encode_roundtrip (x : List Nat) :
    slip_decode (slip_encode x) = Except.ok x := by
  rw [slip_encode, slip_decode_end_cons]
  rw [decode_encode_aux x [SLIP_END]]
  rw [show slip_decode [SLIP_END] = Except.ok [] from rfl]
  simp [Except.map]

/-! ## C4: fragmentation equivalence for the frame reader -/

theorem feed_append (s : SlipReader) (a b : List Nat) :
    SlipReader.feed s (a ++ b) = SlipReader.feed (SlipReader.feed s a) b := by
  simp [SlipReader.feed, List.foldl_append]

theorem feed_flatten (s : SlipReader) (chunks : List (List Nat)) :
    SlipReader.feed s chunks.flatten = chunks.foldl SlipReader.feed s := by
  induction chunks generalizing s with
  | nil => rfl
  | cons c cs ih =>
    simp only [List.flatten_cons, List.foldl_cons]
    rw [feed_append, ih]

/-- C4: feeding a byte sequence to the frame reader chunk by chunk (over any
partition into chunks) extracts exactly the same FIFO sequence of frames as
feeding the whole sequence as one block. -/
theorem slip_reader_fragmentation (s : SlipReader) (chunks : List (List Nat)) :
    (SlipReader.feed s chunks.flatten).packets =
      (chunks.foldl SlipReader.feed s).packets := by
  rw [feed_flatten]

/-! ## C5: exact characterization of decode failures -/

theorem exists_map_ok (f : List Nat → List Nat) (e : Except String (List Nat)) :
    (∃ r, e.map f = Except.ok r) ↔ (∃ r, e = Except.ok r) := by
  cases e <;> simp [Except.map]

theorem has_bad_escape_cons_of_ne (b : Nat) (l : List Nat) (hb : b ≠ SLIP_ESC) :
    has_bad_escape (b :: l) = has_bad_escape l := by
  cases l with
  | nil => simp [has_bad_escape, hb]
  | cons nb rest => simp [has_bad_escape, hb]

theorem slip_decode_ok_iff : (l : List Nat) →
    ((∃ r, slip_decode l = Except.ok r) ↔ has_bad_escape l = false)
  | [] => by simp [slip_decode_nil, has_bad_escape]
  | [b] => by
    by_cases hb : b = SLIP_ESC
    · subst hb
      simp [slip_decode_esc_nil, has_bad_escape]
    · by_cases hbe : b = SLIP_END
      · subst hbe
        rw [show slip_decode [SLIP_END] = Except.ok [] from by
          rw [slip_decode_end_cons, slip_decode_nil]]
        constructor
        · intro _
          simp [has_bad_escape, SLIP_END, SLIP_ESC]
        · intro _
          exact ⟨[], rfl⟩
      · simp [slip_decode_other b [] hb hbe, slip_decode_nil, has_bad_escape, hb, Except.map]
  | b :: nb :: rest => by
    by_cases hb : b = SLIP_ESC
    · subst hb
      by_cases h1 : nb = SLIP_ESC_END
      · subst h1
        rw [slip_decode_esc_end, exists_map_ok, slip_decode_ok_iff rest]
        rw [show has_bad_escape (SLIP_ESC :: SLIP_ESC_END :: rest) =
            has_bad_escape (SLIP_ESC_END :: rest) from by simp [has_bad_escape]]
        rw [has_bad_escape_cons_of_ne _ _ (by decide)]
      · by_cases h2 : nb = SLIP_ESC_ESC
        · subst h2
          rw [slip_decode_esc_esc, exists_map_ok, slip_decode_ok_iff rest]
          rw [show has_bad_escape (SLIP_ESC :: SLIP_ESC_ESC :: rest) =
              has_bad_escape (SLIP_ESC_ESC :: rest) from by simp [has_bad_escape]]
          rw [has_bad_escape_cons_of_ne _ _ (by decide)]
        · rw [slip_decode_esc_bad nb rest h1 h2]
          have hbad : has_bad_escape (SLIP_ESC :: nb :: rest) = true := by
            simp [has_bad_escape, h1, h2]
          simp [hbad]
    · by_cases hbe : b = SLIP_END
      · subst hbe
        rw [slip_decode_end_cons, slip_decode_ok_iff (nb :: rest),
          has_bad_escape_cons_of_ne _ _ hb]
      · rw [slip_decode_other b _ hb hbe, exists_map_ok, slip_decode_ok_iff (nb :: rest),
          has_bad_escape_cons_of_ne _ _ hb]

theorem bad_escape_at_cons_succ (x : Nat) (l : List Nat) (i : Nat) :
    bad_escape_at (x :: l) (i + 1) ↔ bad_escape_at l i := by
  simp [bad_escape_at]

theorem has_bad_escape_iff_exists : (l : List Nat) →
    (has_bad_escape l = true ↔ ∃ i, bad_escape_at l i)
  | [] => by simp [has_bad_escape, bad_escape_at]
  | [b] => by
    simp only [has_bad_escape]
    constructor
    · intro h
      have hb : b = SLIP_ESC := by
        by_contra hc
        simp [hc] at h
      subst hb
      exact ⟨0, by simp [bad_escape_at]⟩
    · rintro ⟨i, h1, h2⟩
      cases i with
      | zero =>
        simp only [List.get?] at h1
        cases h1
        simp
      | succ n =>
        simp [List.get?] at h1
  | b :: nb :: rest => by
    by_cases hcond : b = SLIP_ESC ∧ nb ≠ SLIP_ESC_END ∧ nb ≠ SLIP_ESC_ESC
    · constructor
      · intro _
        obtain ⟨h1, h2, h3⟩ := hcond
        subst h1
        refine ⟨0, rfl, ?_⟩
        intro c hc
        simp only [List.get?] at hc
        cases hc
        exact ⟨h2, h3⟩
      · intro _
        simp [has_bad_escape, hcond]
    · have heq : has_bad_escape (b :: nb :: rest) = has_bad_escape (nb :: rest) := by
        simp [has_bad_escape, hcond]
      rw [heq, has_bad_escape_iff_exists (nb :: rest)]
      constructor
      · rintro ⟨i, hi⟩
        exact ⟨i + 1, (bad_escape_at_cons_succ b (nb :: rest) i).2 hi⟩
      · rintro ⟨i, hi⟩
        cases i with
        | zero =>
          obtain ⟨h1, h2⟩ := hi
          simp only [List.get?] at h1
          cases h1
          have hnb := h2 nb (by simp [List.get?])
          exact absurd ⟨rfl, hnb⟩ hcond
        | succ n =>
          exact ⟨n, (bad_escape_at_cons_succ b (nb :: rest) n).1 hi⟩

/-- C5: `slip_decode` succeeds exactly on the inputs with no malformed escape;
it fails (with `ValueError`, modelled as `Except.error`) precisely when some
escape byte `0xDB` is the last byte of the input or is followed by a byte
other than the two recognized escaped-literal codes `0xDC`/`0xDD`.
(That it strips delimiters and resolves escapes on success is witnessed
separately by the round-trip theorem for C3.) -/
theorem slip_decode_error_characterization (l : List Nat) :
    (∃ r, slip_decode l = Except.ok r) ↔ ¬ ∃ i, bad_escape_at l i := by
  rw [slip_decode_ok_iff l, ← has_bad_escape_iff_exists l]
  simp

/-! ## C6: a corrupt frame is dropped silently and the reader stays usable -/

theorem feed_no_end (f : List Nat) :
    ∀ (s : SlipReader), s.in_packet = true → SLIP_END ∉ f →
      SlipReader.feed s f =
        { buffer := s.buffer ++ f, in_packet := true, packets := s.packets } := by
  induction f with
  | nil =>
    intro s hin _
    cases s
    simp_all [SlipReader.feed]
  | cons x xs ih =>
    intro s hin hmem
    have hx : x ≠ SLIP_END := fun h => hmem (h ▸ List.mem_cons_self _ _)
    have hxs : SLIP_END ∉ xs := fun h => hmem (List.mem_cons_of_mem _ h)
    show SlipReader.feed (SlipReader.feed_byte s x) xs = _
    rw [show SlipReader.feed_byte s x = { s with buffer := s.buffer ++ [x] } from by
      simp [SlipReader.feed_byte, hx, hin]]
    rw [ih { s with buffer := s.buffer ++ [x] } hin hxs]
    simp

theorem feed_byte_end_empty (s : SlipReader) (h : s.buffer = []) :
    SlipReader.feed_byte s SLIP_END =
      { buffer := [], in_packet := true, packets := s.packets } := by
  simp [SlipReader.feed_byte, h]

theorem feed_byte_end_error (s : SlipReader) (hin : s.in_packet = true)
    (hne : s.buffer ≠ []) (herr : has_bad_escape s.buffer = true) :
    SlipReader.feed_byte s SLIP_END =
      { buffer := [], in_packet := true, packets := s.packets } := by
  cases hdec : slip_decode s.buffer with
  | ok d =>
    have := (slip_decode_ok_iff s.buffer).1 ⟨d, hdec⟩
    rw [this] at herr
    exact absurd herr (by simp)
  | error e =>
    simp [SlipReader.feed_byte, hin, hne, hdec]

theorem feed_byte_end_ok (s : SlipReader) (hin : s.in_packet = true)
    (hne : s.buffer ≠ []) (d : List Nat) (hdec : slip_decode s.buffer = Except.ok d) :
    SlipReader.feed_byte s SLIP_END =
      { buffer := [], in_packet := true, packets := s.packets ++ [d] } := by
  simp [SlipReader.feed_byte, hin, hne, hdec]

theorem feed_frame_error (P : List (List Nat)) (f : List Nat)
    (hf1 : f ≠ []) (hf2 : SLIP_END ∉ f) (hf3 : has_bad_escape f = true) :
    SlipReader.feed { buffer := [], in_packet := true, packets := P } (f ++ [SLIP_END]) =
      { buffer := [], in_packet := true, packets := P } := by
  rw [feed_append, feed_no_end f _ rfl hf2]
  simp only [List.nil_append]
  show SlipReader.feed_byte { buffer := f, in_packet := true, packets := P } SLIP_END = _
  exact feed_byte_end_error _ rfl hf1 hf3

theorem feed_frame_ok (P : List (List Nat)) (g : List Nat) (d : List Nat)
    (hg1 : g ≠ []) (hg2 : SLIP_END ∉ g) (hdec : slip_decode g = Except.ok d) :
    SlipReader.feed { buffer := [], in_packet := true, packets := P } (g ++ [SLIP_END]) =
      { buffer := [], in_packet := true, packets := P ++ [d] } := by
  rw [feed_append, feed_no_end g _ rfl hg2]
  simp only [List.nil_append]
  show SlipReader.feed_byte { buffer := g, in_packet := true, packets := P } SLIP_END = _
  exact feed_byte_end_ok _ rfl hg1 d hdec

/-- C6: a delimited frame whose body contains a corrupt escape is discarded
silently by the frame reader — `feed` (a total function, so nothing is
raised) leaves the frame queue unchanged — and the reader remains usable:
a subsequent well-formed frame is decoded and enqueued normally. -/
theorem slip_reader_drops_corrupt_frame (s : SlipReader) (f g : List Nat)
    (hbuf : s.buffer = [])
    (hf1 : f ≠ []) (hf2 : SLIP_END ∉ f) (hf3 : has_bad_escape f = true)
    (hg1 : g ≠ []) (hg2 : SLIP_END ∉ g) (hg3 : has_bad_escape g = false) :
    (s.feed (SLIP_END :: (f ++ [SLIP_END]))).packets = s.packets ∧
    ∃ d, slip_decode g = Except.ok d ∧
      ((s.feed (SLIP_END :: (f ++ [SLIP_END]))).feed (g ++ [SLIP_END])).packets =
        s.packets ++ [d] := by
  obtain ⟨d, hdec⟩ := (slip_decode_ok_iff g).2 hg3
  have h1 : s.feed (SLIP_END :: (f ++ [SLIP_END])) =
      { buffer := [], in_packet := true, packets := s.packets } := by
    rw [show s.feed (SLIP_END :: (f ++ [SLIP_END])) =
      (SlipReader.feed_byte s SLIP_END).feed (f ++ [SLIP_END]) from rfl]
    rw [feed_byte_end_empty s hbuf]
    exact feed_frame_error s.packets f hf1 hf2 hf3
  refine ⟨by rw [h1], d, hdec, ?_⟩
  rw [h1, feed_frame_ok s.packets g d hg1 hg2 hdec]

/-! ## Dict helper lemmas -/

theorem lookupId_insert_self {β : Type} (l : List (Nat × β)) (k : Nat) (v : β) :
    lookupId (insertId l k v) k = some v := by
  simp [insertId, lookupId]

theorem lookupId_removeId_self {β : Type} (l : List (Nat × β)) (k : Nat) :
    lookupId (removeId l k) k = none := by
  induction l with
  | nil => rfl
  | cons kv rest ih =>
    obtain ⟨k1, v⟩ := kv
    by_cases h : k1 = k <;> simp [removeId, h, lookupId, ih]

theorem lookupId_setFired_ne (l : List (Nat × Bool)) (k id : Nat) (h : k ≠ id) :
    lookupId (setFired l k) id = lookupId l id := by
  induction l with
  | nil => rfl
  | cons kv rest ih =>
    obtain ⟨k1, v⟩ := kv
    by_cases h1 : k1 = k
    · subst h1
      simp [setFired, lookupId, h, ih]
    · simp [setFired, h1, lookupId, ih]

/-! ## C1 / C10: the packet-id allocator -/

theorem allocN_law (s : ClientState) : ∀ k, 1 ≤ k →
    (allocN s k).packet_id = (s.packet_id + k) % 0xFFFFFFFF ∧
    (allocN s k).response_events = s.response_events ∧
    (allocN s k).pending_responses = s.pending_responses := by
  intro k
  induction k with
  | zero => intro h; exact absurd h (by omega)
  | succ n ih =>
    intro _
    by_cases hn : n = 0
    · subst hn
      exact ⟨rfl, rfl, rfl⟩
    · obtain ⟨hp, he, hr⟩ := ih (Nat.one_le_iff_ne_zero.2 hn)
      refine ⟨?_, ?_, ?_⟩
      · simp only [allocN, next_packet_id]
        rw [hp]
        omega
      · simp only [allocN, next_packet_id]
        exact he
      · simp only [allocN, next_packet_id]
        exact hr

/-- C1 counterexample: with the counter at 1 and id 2 currently backing a
Pending Request (a registered, un-fired response event), `_next_packet_id`
still returns 2 — it does not skip forward past ids that back pending
requests, so the claim as stated is false. -/
theorem next_packet_id_counterexample :
    (next_packet_id counter_collision_state).1 = 2 ∧
    lookupId counter_collision_state.response_events 2 = some false := by
  exact ⟨by decide, by decide⟩

/-- C1 (amended): `_next_packet_id` advances the counter unconditionally —
after any `k ≥ 1` allocations from any state the counter is
`(old + k) % 0xFFFFFFFF` (so it wraps modulo `2^32 - 1`, not `2^32`),
and the pending-request tables are neither consulted nor changed: an id
currently backing a Pending Request can be returned again. -/
theorem next_packet_id_ignores_pending (s : ClientState) (k : Nat) (h : 1 ≤ k) :
    (allocN s k).packet_id = (s.packet_id + k) % 0xFFFFFFFF ∧
    (allocN s k).response_events = s.response_events ∧
    (allocN s k).pending_responses = s.pending_responses :=
  allocN_law s k h

theorem next_packet_id_ignores_pending_witness :
    (allocN sample_pending_state 3).packet_id = (sample_pending_state.packet_id + 3) % 0xFFFFFFFF ∧
    (allocN sample_pending_state 3).response_events = sample_pending_state.response_events ∧
    (allocN sample_pending_state 3).pending_responses = sample_pending_state.pending_responses :=
  next_packet_id_ignores_pending sample_pending_state 3 (by decide)

/-- C10: the counter steps by `(id + 1) % 0xFFFFFFFF` — modulo `2^32 - 1`,
not `2^32` — so starting from the freshly constructed client the first
allocated id is 1, the `k`-th is `k % 0xFFFFFFFF`, the value `0xFFFFFFFF`
is never allocated, and every value in `0 .. 0xFFFFFFFE` is eventually
allocated. -/
theorem packet_id_counter_law (k v : Nat) (hk : 1 ≤ k) (hv : v ≤ 0xFFFFFFFE) :
    (allocN init_client k).packet_id = k % 0xFFFFFFFF ∧
    (allocN init_client 1).packet_id = 1 ∧
    (allocN init_client k).packet_id ≠ 0xFFFFFFFF ∧
    ∃ j, 1 ≤ j ∧ (allocN init_client j).packet_id = v := by
  have law : ∀ (j : Nat), 1 ≤ j →
      (allocN init_client j).packet_id = (0 + j) % 0xFFFFFFFF :=
    fun j hj => (allocN_law init_client j hj).1
  refine ⟨?_, ?_, ?_, ?_⟩
  · rw [law k hk, Nat.zero_add]
  · rw [law 1 (by omega)]
  · rw [law k hk, Nat.zero_add]
    have hlt : k % 0xFFFFFFFF < 0xFFFFFFFF := Nat.mod_lt _ (by norm_num)
    omega
  · by_cases hv0 : v = 0
    · subst hv0
      refine ⟨0xFFFFFFFF, by norm_num, ?_⟩
      rw [law _ (by norm_num), Nat.zero_add, Nat.mod_self]
    · refine ⟨v, by omega, ?_⟩
      rw [law v (by omega), Nat.zero_add, Nat.mod_eq_of_lt (by omega)]

theorem packet_id_counter_law_witness :
    (allocN init_client 2).packet_id = 2 % 0xFFFFFFFF ∧
    (allocN init_client 1).packet_id = 1 ∧
    (allocN init_client 2).packet_id ≠ 0xFFFFFFFF ∧
    ∃ j, 1 ≤ j ∧ (allocN init_client j).packet_id = 5 :=
  packet_id_counter_law 2 5 (by norm_num) (by norm_num)

/-! ## C2: timeout deregisters the pending request; late replies are dropped -/

theorem foldl_handle_keeps_unfired (cbs : Callbacks) (id : Nat) :
    ∀ (arr : List SerialPacket) (st : ClientState),
      lookupId st.response_events id = some false →
      (∀ p ∈ arr, ∀ q, p.from_device = some q → q.request_id ≠ id) →
      lookupId
        (arr.foldl (fun s p => (handle_packet cbs s p).1) st).response_events
        id = some false := by
  intro arr
  induction arr with
  | nil => intro st h _; exact h
  | cons p ps ih =>
    intro st h hmem
    have hstep : lookupId (handle_packet cbs st p).1.response_events id = some false := by
      cases hp : p.from_device with
      | none => simp [handle_packet, hp, h]
      | some q =>
        have hq : q.request_id ≠ id := hmem p (List.mem_cons_self _ _) q hp
        cases hl : lookupId st.response_events q.request_id with
        | none => simp [handle_packet, hp, hl, h]
        | some b =>
          simp only [handle_packet, hp, hl]
          rw [lookupId_setFired_ne _ _ _ hq]
          exact h
    exact ih _ hstep (fun p1 hp1 => hmem p1 (List.mem_cons_of_mem _ hp1))

/-- C2: a `_send_command` call whose wait window sees no reply carrying its
allocated packet id fails with `TimeoutError` and deregisters its Pending
Request; a reply with that `request_id` handled afterwards finds no matching
pending request, so `_handle_packet` takes the event branch, leaves the
correlation state untouched (the call is not resurrected) and — the payload
being a response kind, not an event kind — invokes no handler: the frame is
effectively dropped. -/
theorem send_command_timeout_discards_late_reply (cbs : Callbacks) (s : ClientState)
    (arrivals : List SerialPacket) (late : SerialPacket) (r : FromDevice)
    (hnomatch : ∀ p ∈ arrivals, ∀ q, p.from_device = some q →
      q.request_id ≠ (s.packet_id + 1) % 0xFFFFFFFF)
    (hlate : late.from_device = some r)
    (hrid : r.request_id = (s.packet_id + 1) % 0xFFFFFFFF)
    (hkind : r.payload.is_event_kind = false) :
    (send_command_run cbs s arrivals).2 = Except.error PyError.timeoutError ∧
    lookupId (send_command_run cbs s arrivals).1.response_events
      ((s.packet_id + 1) % 0xFFFFFFFF) = none ∧
    handle_packet cbs (send_command_run cbs s arrivals).1 late =
      ((send_command_run cbs s arrivals).1, HandleOutcome.event none) := by
  have key : lookupId
      (run_reader cbs (register_event (next_packet_id s).2 (next_packet_id s).1)
        arrivals).response_events (next_packet_id s).1 = some false := by
    apply foldl_handle_keeps_unfired
    · exact lookupId_insert_self _ _ _
    · exact hnomatch
  have hrun : send_command_run cbs s arrivals =
      (deregister_event
        (run_reader cbs (register_event (next_packet_id s).2 (next_packet_id s).1) arrivals)
        (next_packet_id s).1,
       Except.error PyError.timeoutError) := by
    simp only [send_command_run]
    rw [key]
  have hev : handle_event cbs r = none := by
    cases hpay : r.payload <;> simp_all [handle_event, Payload.is_event_kind]
  have hnone : lookupId
      (deregister_event
        (run_reader cbs (register_event (next_packet_id s).2 (next_packet_id s).1) arrivals)
        (next_packet_id s).1).response_events ((s.packet_id + 1) % 0xFFFFFFFF) = none := by
    exact lookupId_removeId_self _ _
  refine ⟨by rw [hrun], ?_, ?_⟩
  · rw [hrun]
    exact hnone
  · rw [hrun]
    simp only [handle_packet, hlate]
    rw [hrid, hnone, hev]

theorem send_command_timeout_witness :
    (send_command_run all_callbacks init_client []).2 =
      Except.error PyError.timeoutError ∧
    lookupId (send_command_run all_callbacks init_client []).1.response_events 1 = none ∧
    handle_packet all_callbacks (send_command_run all_callbacks init_client []).1
      late_reply_packet =
      ((send_command_run all_callbacks init_client []).1, HandleOutcome.event none) := by
  have h := send_command_timeout_discards_late_reply all_callbacks init_client []
    late_reply_packet { request_id := 1, payload := Payload.result }
    (by intro p hp; exact absurd hp (List.not_mem_nil p))
    rfl (by decide) rfl
  simpa using h

/-! ## C7: single send vs validation error -/

/-- C7: with `auto_split=False`, `send_message` issues exactly one command
carrying the full text when the text has at most 180 characters (whatever
the outcome of that send), and for longer text it fails immediately with
`ValueError`, issuing no command and performing no I/O; the error message
states the 180-character limit. -/
theorem send_message_single_or_validation (fails : List Char → Option PyError)
    (text : List Char) (p t : Option Nat) :
    (text.length ≤ 180 →
      (send_message fails text p t false).1 = [Action.send text t]) ∧
    (180 < text.length →
      send_message fails text p t false =
        ([], Except.error (PyError.valueError (too_long_msg text.length))) ∧
      ∃ a b : List Char,
        (too_long_msg text.length).data = a ++ ("Max: 180").data ++ b) := by
  constructor
  · intro h
    simp [send_message, h]
  · intro h
    refine ⟨by simp [send_message, Nat.not_le.2 h], ?_⟩
    refine ⟨("Message too long (" ++ Nat.repr text.length ++ " chars). ").data,
      ("\nUse auto_split=True to automatically split into multiple messages, or split manually.").data,
      ?_⟩
    simp only [too_long_msg, String.data_append, List.append_assoc]
    congr 1

theorem send_message_single_or_validation_witness :
    (send_message (fun _ => none) ['h', 'i'] none none false).1 =
      [Action.send ['h', 'i'] none] ∧
    send_message (fun _ => none) (List.replicate 181 'x') none none false =
      ([], Except.error (PyError.valueError (too_long_msg 181))) := by
  refine ⟨(send_message_single_or_validation (fun _ => none) ['h', 'i'] none none).1
    (by norm_num), ?_⟩
  have h := ((send_message_single_or_validation (fun _ => none)
    (List.replicate 181 'x') none none).2
      (by rw [List.length_replicate]; norm_num)).1
  rw [List.length_replicate] at h
  exact h

/-! ## C9: `broadcast` passes its timeout into the dead `priority` slot -/

/-- C9: `send_message` never reads its `priority` parameter, and
`broadcast(text, t)` — which passes `t` positionally into that parameter —
is therefore behaviorally identical to `send_message(text)` with default
priority, default timeout and chunking disabled: the caller-supplied
timeout is ignored. -/
theorem broadcast_ignores_timeout (fails : List Char → Option PyError)
    (text : List Char) (p1 p2 t u : Option Nat) (a : Bool) :
    send_message fails text p1 u a = send_message fails text p2 u a ∧
    broadcast fails text t = send_message fails text none none false :=
  ⟨rfl, rfl⟩

/-! ## C8: chunked send trace -/

theorem flatMap_congr_fun {α β : Type} (l : List α) (f g : α → List β)
    (h : ∀ a ∈ l, f a = g a) : l.flatMap f = l.flatMap g := by
  induction l with
  | nil => rfl
  | cons x xs ih =>
    rw [List.flatMap_cons, List.flatMap_cons, h x (List.mem_cons_self x xs),
      ih (fun a ha => h a (List.mem_cons_of_mem x ha))]

theorem flatMap_map_succ {α : Type} (l : List Nat) (g : Nat → List α) :
    (l.map Nat.succ).flatMap g = l.flatMap (fun j => g (j + 1)) := by
  induction l with
  | nil => rfl
  | cons x xs ih =>
    simp only [List.map_cons, List.flatMap_cons, ih]

theorem ceil160_succ (n : Nat) (h : 1 ≤ n) :
    (n + 159) / 160 = ((n - 160) + 159) / 160 + 1 := by
  rcases le_or_lt n 160 with h1 | h1
  · have hn : n - 160 = 0 := by omega
    have h2 : n + 159 = (n - 1) + 160 := by omega
    rw [hn, h2, Nat.add_div_right _ (by norm_num)]
    rw [Nat.div_eq_of_lt (by omega), Nat.div_eq_of_lt (by norm_num)]
  · have h2 : n + 159 = (n - 1) + 160 := by omega
    have h3 : n - 160 + 159 = n - 1 := by omega
    rw [h2, h3, Nat.add_div_right _ (by norm_num)]

theorem chunks160_eq (l : List Char) :
    chunks160 l = (List.range ((l.length + 159) / 160)).map
      (fun j => (l.drop (160 * j)).take 160) := by
  induction l using chunks160.induct with
  | case1 => simp [chunks160]
  | case2 c cs ih =>
    conv_lhs => rw [chunks160]
    rw [ih]
    have hN : ((c :: cs).length + 159) / 160 =
        (((c :: cs).drop 160).length + 159) / 160 + 1 := by
      rw [List.length_drop]
      exact ceil160_succ _ (by simp)
    have hfun : (fun j => (((c :: cs).drop 160).drop (160 * j)).take 160) =
        (fun j => ((c :: cs).drop (160 * j)).take 160) ∘ Nat.succ := by
      funext j
      simp only [Function.comp]
      rw [List.drop_drop]
      rw [show (160 : Nat) + 160 * j = 160 * Nat.succ j from by omega]
    rw [hfun, hN, List.range_succ_eq_map, List.map_cons, List.map_map]
    simp

theorem get?_chunks (text : List Char) (j : Nat)
    (hj : j < (text.length + 159) / 160) :
    (chunks160 text).get? j = some ((text.drop (160 * j)).take 160) := by
  rw [chunks160_eq, List.get?_map, List.get?_range hj]
  rfl

theorem getD_chunks (text : List Char) (j : Nat)
    (hj : j < (text.length + 159) / 160) :
    (chunks160 text).getD j [] = (text.drop (160 * j)).take 160 := by
  rw [List.getD_eq_get?, get?_chunks text j hj]
  rfl

theorem send_chunks_ok (fails : List Char → Option PyError) (t : Option Nat) (total : Nat) :
    ∀ (cs : List (List Char)) (i : Nat),
      (∀ j c, cs.get? j = some c → fails (part_text (i + j + 1) total c) = none) →
      send_chunks fails t total i cs =
        ((List.range cs.length).flatMap (fun j =>
           Action.send (part_text (i + j + 1) total (cs.getD j [])) t ::
             if i + j < total - 1 then [Action.sleep 300] else []),
         Except.ok []) := by
  intro cs
  induction cs with
  | nil => intro i _; rfl
  | cons c cs ih =>
    intro i h
    have h0 : fails (part_text (i + 1) total c) = none := by
      have h1 := h 0 c rfl
      rw [show i + 0 + 1 = i + 1 from by omega] at h1
      exact h1
    have ihh := ih (i + 1) (fun j cj hj => by
      have h1 := h (j + 1) cj (by simpa using hj)
      rw [show i + (j + 1) + 1 = i + 1 + j + 1 from by omega] at h1
      exact h1)
    have hr : (List.range (c :: cs).length).flatMap (fun j =>
          Action.send (part_text (i + j + 1) total ((c :: cs).getD j [])) t ::
            if i + j < total - 1 then [Action.sleep 300] else []) =
        (Action.send (part_text (i + 1) total c) t ::
            if i < total - 1 then [Action.sleep 300] else []) ++
          (List.range cs.length).flatMap (fun j =>
            Action.send (part_text (i + 1 + j + 1) total (cs.getD j [])) t ::
              if i + 1 + j < total - 1 then [Action.sleep 300] else []) := by
      rw [List.length_cons, List.range_succ_eq_map, List.flatMap_cons, flatMap_map_succ]
      congr 1
      apply flatMap_congr_fun
      intro j hj
      rw [show i + (j + 1) + 1 = i + 1 + j + 1 from by omega,
        show i + (j + 1) = i + 1 + j from by omega]
      simp
    simp only [send_chunks, h0]
    by_cases hi : i < total - 1
    · rw [if_pos hi, ihh, hr, if_pos hi]
      simp
    · rw [if_neg hi, ihh, hr, if_neg hi]
      simp

theorem send_chunks_fail (fails : List Char → Option PyError) (t : Option Nat) (total : Nat) :
    ∀ (cs : List (List Char)) (i k : Nat) (c : List Char) (e : PyError),
      cs.get? k = some c →
      fails (part_text (i + k + 1) total c) = some e →
      (∀ j cj, j < k → cs.get? j = some cj →
        fails (part_text (i + j + 1) total cj) = none) →
      send_chunks fails t total i cs =
        ((List.range k).flatMap (fun j =>
           Action.send (part_text (i + j + 1) total (cs.getD j [])) t ::
             if i + j < total - 1 then [Action.sleep 300] else []) ++
           [Action.send (part_text (i + k + 1) total c) t],
         Except.error e) := by
  intro cs
  induction cs with
  | nil =>
    intro i k c e hk _ _
    exact absurd hk (by simp)
  | cons c0 cs ih =>
    intro i k c e hk hfail hpre
    cases k with
    | zero =>
      have hc : c0 = c := by simpa using hk
      subst hc
      rw [show i + 0 + 1 = i + 1 from by omega] at hfail ⊢
      simp only [send_chunks, hfail]
      simp
    | succ k =>
      have h0 : fails (part_text (i + 1) total c0) = none := by
        have h1 := hpre 0 c0 (Nat.succ_pos k) rfl
        rw [show i + 0 + 1 = i + 1 from by omega] at h1
        exact h1
      have ihh := ih (i + 1) k c e (by simpa using hk)
        (by rw [show i + 1 + k + 1 = i + (k + 1) + 1 from by omega]; exact hfail)
        (fun j cj hj hjc => by
          have h1 := hpre (j + 1) cj (by omega) (by simpa using hjc)
          rw [show i + (j + 1) + 1 = i + 1 + j + 1 from by omega] at h1
          exact h1)
      have hr : (List.range (k + 1)).flatMap (fun j =>
            Action.send (part_text (i + j + 1) total ((c0 :: cs).getD j [])) t ::
              if i + j < total - 1 then [Action.sleep 300] else []) =
          (Action.send (part_text (i + 1) total c0) t ::
              if i < total - 1 then [Action.sleep 300] else []) ++
            (List.range k).flatMap (fun j =>
              Action.send (part_text (i + 1 + j + 1) total (cs.getD j [])) t ::
                if i + 1 + j < total - 1 then [Action.sleep 300] else []) := by
        rw [List.range_succ_eq_map, List.flatMap_cons, flatMap_map_succ]
        congr 1
        apply flatMap_congr_fun
        intro j hj
        rw [show i + (j + 1) + 1 = i + 1 + j + 1 from by omega,
          show i + (j + 1) = i + 1 + j from by omega]
        simp
      simp only [send_chunks, h0]
      rw [show i + (k + 1) + 1 = i + 1 + k + 1 from by omega]
      by_cases hi : i < total - 1
      · rw [if_pos hi, ihh, hr, if_pos hi]
        simp
      · rw [if_neg hi, ihh, hr, if_neg hi]
        simp

/-- C8: for text longer than 180 characters with chunking enabled,
`send_message` splits the text into `⌈len/160⌉` consecutive 160-character
chunks (`text[160*j : 160*j + 160]`), transmits for the 1-based chunk index
`j+1` of total `N` the text `"[j+1/N] " + chunk` as a separate command in
order, sleeping 300 ms after every send except the last; and it aborts at
the first failing chunk send, propagating that error, sending every earlier
chunk (each followed by its sleep) and none of the later ones. -/
theorem send_split_message_trace (fails : List Char → Option PyError) (text : List Char)
    (p t : Option Nat) (h : 180 < text.length) :
    (chunks160 text).length = (text.length + 159) / 160 ∧
    chunks160 text = (List.range ((text.length + 159) / 160)).map
      (fun j => (text.drop (160 * j)).take 160) ∧
    ((∀ j, j < (text.length + 159) / 160 →
        fails (part_text (j + 1) ((text.length + 159) / 160)
          ((text.drop (160 * j)).take 160)) = none) →
      send_message fails text p t true =
        ((List.range ((text.length + 159) / 160)).flatMap (fun j =>
           Action.send (part_text (j + 1) ((text.length + 159) / 160)
             ((text.drop (160 * j)).take 160)) t ::
             if j < (text.length + 159) / 160 - 1 then [Action.sleep 300] else []),
         Except.ok [])) ∧
    (∀ k e, k < (text.length + 159) / 160 →
      fails (part_text (k + 1) ((text.length + 159) / 160)
        ((text.drop (160 * k)).take 160)) = some e →
      (∀ j, j < k →
        fails (part_text (j + 1) ((text.length + 159) / 160)
          ((text.drop (160 * j)).take 160)) = none) →
      send_message fails text p t true =
        ((List.range k).flatMap (fun j =>
           Action.send (part_text (j + 1) ((text.length + 159) / 160)
             ((text.drop (160 * j)).take 160)) t ::
             if j < (text.length + 159) / 160 - 1 then [Action.sleep 300] else []) ++
           [Action.send (part_text (k + 1) ((text.length + 159) / 160)
             ((text.drop (160 * k)).take 160)) t],
         Except.error e)) := by
  have hlen : (chunks160 text).length = (text.length + 159) / 160 := by
    rw [chunks160_eq]
    simp
  have hmsg : send_message fails text p t true =
      send_chunks fails t (chunks160 text).length 0 (chunks160 text) := by
    simp [send_message, send_split_message, Nat.not_le.2 h]
  refine ⟨hlen, chunks160_eq text, ?_, ?_⟩
  · intro hok
    have hhyp : ∀ j c, (chunks160 text).get? j = some c →
        fails (part_text (0 + j + 1) (chunks160 text).length c) = none := by
      intro j c hjc
      rcases List.get?_eq_some.1 hjc with ⟨hj, _⟩
      rw [hlen] at hj
      have hgj := get?_chunks text j hj
      have hc : c = (text.drop (160 * j)).take 160 := by
        rw [hgj] at hjc
        exact (Option.some.inj hjc).symm
      subst hc
      rw [Nat.zero_add, hlen]
      exact hok j hj
    rw [hmsg, send_chunks_ok fails t (chunks160 text).length (chunks160 text) 0 hhyp,
      hlen]
    have hconv : (List.range ((text.length + 159) / 160)).flatMap (fun j =>
          Action.send (part_text (0 + j + 1) ((text.length + 159) / 160)
            ((chunks160 text).getD j [])) t ::
            if 0 + j < (text.length + 159) / 160 - 1 then [Action.sleep 300] else []) =
        (List.range ((text.length + 159) / 160)).flatMap (fun j =>
          Action.send (part_text (j + 1) ((text.length + 159) / 160)
            ((text.drop (160 * j)).take 160)) t ::
            if j < (text.length + 159) / 160 - 1 then [Action.sleep 300] else []) := by
      apply flatMap_congr_fun
      intro j hj
      have hjN : j < (text.length + 159) / 160 := List.mem_range.1 hj
      rw [Nat.zero_add, getD_chunks text j hjN]
    rw [hconv]
  · intro k e hk hfailk hpre
    have hgk := get?_chunks text k hk
    have hhyp : ∀ j cj, j < k → (chunks160 text).get? j = some cj →
        fails (part_text (0 + j + 1) (chunks160 text).length cj) = none := by
      intro j cj hjk hjc
      rcases List.get?_eq_some.1 hjc with ⟨hj, _⟩
      rw [hlen] at hj
      have hgj := get?_chunks text j hj
      have hc : cj = (text.drop (160 * j)).take 160 := by
        rw [hgj] at hjc
        exact (Option.some.inj hjc).symm
      subst hc
      rw [Nat.zero_add, hlen]
      exact hpre j hjk
    have hfail1 : fails (part_text (0 + k + 1) (chunks160 text).length
        ((text.drop (160 * k)).take 160)) = some e := by
      rw [Nat.zero_add, hlen]
      exact hfailk
    rw [hmsg, send_chunks_fail fails t (chunks160 text).length (chunks160 text) 0 k
      ((text.drop (160 * k)).take 160) e hgk hfail1 hhyp, hlen]
    have hconv : (List.range k).flatMap (fun j =>
          Action.send (part_text (0 + j + 1) ((text.length + 159) / 160)
            ((chunks160 text).getD j [])) t ::
            if 0 + j < (text.length + 159) / 160 - 1 then [Action.sleep 300] else []) =
        (List.range k).flatMap (fun j =>
          Action.send (part_text (j + 1) ((text.length + 159) / 160)
            ((text.drop (160 * j)).take 160)) t ::
            if j < (text.length + 159) / 160 - 1 then [Action.sleep 300] else []) := by
      apply flatMap_congr_fun
      intro j hj
      have hjk : j < k := List.mem_range.1 hj
      have hjN : j < (text.length + 159) / 160 := lt_trans hjk hk
      rw [Nat.zero_add, getD_chunks text j hjN]
    rw [hconv, Nat.zero_add]

theorem slip_reader_drops_corrupt_frame_witness :
    (SlipReader.init.feed (SLIP_END :: ([SLIP_ESC, 0x01] ++ [SLIP_END]))).packets = [] ∧
    ∃ d, slip_decode [0x02] = Except.ok d ∧
      ((SlipReader.init.feed (SLIP_END :: ([SLIP_ESC, 0x01] ++ [SLIP_END]))).feed
        ([0x02] ++ [SLIP_END])).packets = [d] := by
  have h := slip_reader_drops_corrupt_frame SlipReader.init [SLIP_ESC, 0x01] [0x02]
    rfl (by decide) (by decide) (by decide) (by decide) (by decide) (by decide)
  simpa [SlipReader.init] using h

set_option maxRecDepth 8000 in
theorem send_split_message_trace_witness :
    send_message (fun _ => none) (List.replicate 200 'a') none none true =
      ([Action.send (part_text 1 2 (List.replicate 160 'a')) none,
        Action.sleep 300,
        Action.send (part_text 2 2 (List.replicate 40 'a')) none],
       Except.ok []) := by
  have h := (send_split_message_trace (fun _ => none) (List.replicate 200 'a') none none
    (by rw [List.length_replicate]; norm_num)).2.2.1 (fun j hj => rfl)
  rw [h]
  rfl

end LoraMesh
